import Mathlib

/-!
Verification of the role-based query-filtering core of the askattdocs backend.

The development shallowly embeds, from the Python source:

* the data model rows behind `roles`, `configurations`, `role_configuration_access`,
  `users` and `user_roles` (src/backend/app/models/user.py, domain.py);
* the request-scoped role context `current_user_roles`
  (a `ContextVar[set[str]]` with default `set()`, src/backend/app/models/__init__.py);
* the `do_orm_execute` listener `apply_role_based_filtering`
  (src/backend/app/models/__init__.py), which attaches a
  `with_loader_criteria(Configuration, lambda cls: cls.roles.any(Role.name.in_(roles)))`
  option to the statement in the non-exempt case;
* the dependency `get_current_user_with_context` and the guard factory
  `require_role` (src/backend/app/api/deps.py);
* the admin endpoint `assign_user_roles` (src/backend/app/api/v1/admin.py),
  used to justify the duplicate-freeness invariant on role assignments.

Queries are evaluated against an explicit database state: a statement's result
set is the rows of its target table filtered by the loader criteria that apply
to that entity, mirroring the semantics of `with_loader_criteria`.
-/

namespace AskAttDocs

/-- A row of the `roles` table (`Role` model): `id` is the primary key and
`name` carries a uniqueness constraint. -/
structure RoleRow where
  id : Nat
  name : String
deriving DecidableEq

/-- A row of the `configurations` table (`Configuration` model). Only the
columns the filtering mechanism inspects are kept: the primary key and the
owning domain. -/
structure ConfigRow where
  id : Nat
  domainId : Nat
deriving DecidableEq

/-- A row of the `role_configuration_access` association table: a grant linking
one role to one configuration. -/
structure GrantRow where
  roleId : Nat
  configId : Nat
deriving DecidableEq

/-- A row of the `users` table; only the primary key matters here. -/
structure UserRow where
  id : Nat
deriving DecidableEq

/-- A row of the `user_roles` association table: one role assignment. -/
structure UserRoleRow where
  userId : Nat
  roleId : Nat
deriving DecidableEq

/-- The database state: the tables the claims quantify over. -/
structure DB where
  roles : List RoleRow
  configs : List ConfigRow
  grants : List GrantRow
  users : List UserRow
  userRoleRows : List UserRoleRow
deriving DecidableEq

/-- The entity a statement selects from. -/
inductive EntityKind where
  | user
  | role
  | configuration
  | domain
  | conversation
deriving DecidableEq

/-- A loader criterion attached to a statement. The listener only ever builds
one shape: `with_loader_criteria(Configuration, lambda cls:
cls.roles.any(Role.name.in_(roles)))`, carrying the role-name collection taken
from the context. -/
inductive LoaderCriterion where
  | configRolesAnyNameIn : List String → LoaderCriterion
deriving DecidableEq

/-- A statement about to execute: its target entity and the loader criteria
attached via `.options(with_loader_criteria(...))`. -/
structure Statement where
  target : EntityKind
  criteria : List LoaderCriterion
deriving DecidableEq

/-- The `ORMExecuteState` fields the listener reads: the two nested-load flags
and the statement it may rewrite. -/
structure ExecuteState where
  is_column_load : Bool
  is_relationship_load : Bool
  statement : Statement
deriving DecidableEq

/-- A plain top-level select over a table, before the listener runs. -/
def selectFrom (ek : EntityKind) : Statement :=
  { target := ek, criteria := [] }

/-- The execute state of an ordinary top-level query (not a column load, not a
relationship load). -/
def freshExec (st : Statement) : ExecuteState :=
  { is_column_load := false, is_relationship_load := false, statement := st }

/-! ### The request identity context

`current_user_roles: ContextVar[set[str]] = ContextVar("current_user_roles",
default=set())`.  Within one logical request the variable behaves as a single
slot: `get()` returns the last value set in this context, or the default when
nothing was ever set, and never raises; `set(v)` overwrites the slot. -/

/-- The declared default of `current_user_roles`: the empty collection. -/
def currentUserRolesDefault : List String := []

/-- `current_user_roles.get()` within one request: the stored value, or the
default when the variable was never set. Total, so it can never raise. -/
def cvGet (s : Option (List String)) : List String :=
  s.getD currentUserRolesDefault

/-- `current_user_roles.set(v)` within one request: overwrite the slot. -/
def cvSet (v : List String) (_s : Option (List String)) : Option (List String) :=
  some v

/-! ### The query rewriter -/

/-- The `do_orm_execute` listener `apply_role_based_filtering`, as a function
of the context value it reads and the execute state it rewrites:

* return unchanged when `execute_state.is_column_load or
  execute_state.is_relationship_load`;
* return unchanged when `not roles or "ADMIN" in roles`;
* otherwise attach `with_loader_criteria(Configuration,
  lambda cls: cls.roles.any(Role.name.in_(roles)), include_aliases=True)`
  to the statement. Note the listener never inspects the statement's target
  entity. -/
def apply_role_based_filtering (roles : List String) (es : ExecuteState) :
    ExecuteState :=
  if es.is_column_load || es.is_relationship_load then
    es
  else if roles.isEmpty || roles.contains "ADMIN" then
    es
  else
    { es with
      statement :=
        { es.statement with
          criteria := es.statement.criteria ++
            [LoaderCriterion.configRolesAnyNameIn roles] } }

/-- Whether a configuration row satisfies one loader criterion: the SQL
predicate `cls.roles.any(Role.name.in_(roles))` holds of `c` iff some
`role_configuration_access` row links `c` to a role whose name is in the
collection. -/
def configMatchesCriterion (db : DB) (c : ConfigRow) :
    LoaderCriterion → Bool
  | .configRolesAnyNameIn rs =>
      db.grants.any fun g =>
        g.configId == c.id &&
          db.roles.any fun r => r.id == g.roleId && rs.contains r.name

/-- Whether a user row satisfies one loader criterion. A
`with_loader_criteria(Configuration, ...)` option constrains only rows of the
`Configuration` entity, so it never excludes a `User` row. -/
def userMatchesCriterion : LoaderCriterion → UserRow → Bool
  | .configRolesAnyNameIn _, _ => true

/-- Result set of a configuration select: the configuration rows satisfying
every attached loader criterion. -/
def visibleConfigs (db : DB) (st : Statement) : List ConfigRow :=
  db.configs.filter fun c => st.criteria.all (configMatchesCriterion db c)

/-- Result set of a user select: the user rows satisfying every attached
loader criterion (configuration-scoped criteria constrain none of them). -/
def visibleUsers (db : DB) (st : Statement) : List UserRow :=
  db.users.filter fun u => st.criteria.all fun cr => userMatchesCriterion cr u

/-! ### Behaviour of the listener on each branch -/

/-- In the non-exempt case (top-level query, non-empty non-admin role set) the
listener appends exactly one loader criterion to the statement, carrying the
context's role names. -/
theorem apply_nonexempt (R : List String) (es : ExecuteState)
    (h1 : es.is_column_load = false) (h2 : es.is_relationship_load = false)
    (hne : R ≠ []) (hadm : "ADMIN" ∉ R) :
    apply_role_based_filtering R es =
      { es with statement := { es.statement with
          criteria := es.statement.criteria ++
            [LoaderCriterion.configRolesAnyNameIn R] } } := by
  simp [apply_role_based_filtering, h1, h2, hne, hadm]

/-- When the context value is empty or contains `"ADMIN"`, the listener
returns the execute state unchanged. -/
theorem apply_exempt_ctx (R : List String) (es : ExecuteState)
    (h : R = [] ∨ "ADMIN" ∈ R) : apply_role_based_filtering R es = es := by
  rcases h with h | h
  · subst h; simp [apply_role_based_filtering]
  · simp [apply_role_based_filtering, h]

/-- A statement with no loader criteria returns every configuration row. -/
theorem visibleConfigs_no_criteria (db : DB) (ek : EntityKind) :
    visibleConfigs db (selectFrom ek) = db.configs := by
  simp [visibleConfigs, selectFrom]

/-! ### Claims C1, C2, C3: the rewriter's filtering logic -/

/-- C1: for a stored role set that is non-empty and free of `"ADMIN"`, a
filtered configuration query returns a row iff some grant links it to a role
whose name is in the set — the grant-intersection predicate, exactly. -/
theorem filtered_query_iff_grant_intersection
    (R : List String) (db : DB) (c : ConfigRow)
    (hne : R ≠ []) (hadm : "ADMIN" ∉ R) :
    c ∈ visibleConfigs db
        ((apply_role_based_filtering R
            (freshExec (selectFrom .configuration))).statement) ↔
      c ∈ db.configs ∧
        ∃ g ∈ db.grants, g.configId = c.id ∧
          ∃ r ∈ db.roles, r.id = g.roleId ∧ r.name ∈ R := by
  rw [apply_nonexempt R _ rfl rfl hne hadm]
  simp only [visibleConfigs, freshExec, selectFrom, List.mem_filter,
    List.nil_append, List.all_cons, List.all_nil, Bool.and_true,
    configMatchesCriterion, List.any_eq_true, Bool.and_eq_true, beq_iff_eq,
    List.contains_eq_any_beq, decide_eq_true_eq]
  constructor
  · rintro ⟨hc, g, hg, hgc, r, hr, hri, hrn⟩
    exact ⟨hc, g, hg, hgc, r, hr, hri, by simpa using hrn⟩
  · rintro ⟨hc, g, hg, hgc, r, hr, hri, hrn⟩
    exact ⟨hc, g, hg, hgc, r, hr, hri, by simpa using hrn⟩

/-- C1 witness: the spec's scenario — role set `{"MANAGER"}`, one
configuration granted to `{"MANAGER", "ADMIN"}` and one granted to `{"OIS"}`
only; the first is visible. -/
theorem filtered_query_iff_grant_intersection_witness :
    let db : DB :=
      { roles := [⟨1, "MANAGER"⟩, ⟨2, "ADMIN"⟩, ⟨3, "OIS"⟩],
        configs := [⟨10, 0⟩, ⟨11, 0⟩],
        grants := [⟨1, 10⟩, ⟨2, 10⟩, ⟨3, 11⟩],
        users := [],
        userRoleRows := [] }
    (⟨10, 0⟩ : ConfigRow) ∈ visibleConfigs db
      ((apply_role_based_filtering ["MANAGER"]
          (freshExec (selectFrom .configuration))).statement) := by
  intro db
  exact (filtered_query_iff_grant_intersection ["MANAGER"] db ⟨10, 0⟩
    (by decide) (by decide)).mpr (by decide)

/-- C2: when the stored role set contains `"ADMIN"`, the listener returns
every execute state unchanged, so a configuration select returns every row
regardless of its grants. -/
theorem admin_bypasses_filtering
    (R : List String) (hadm : "ADMIN" ∈ R) :
    (∀ es : ExecuteState, apply_role_based_filtering R es = es) ∧
      ∀ db : DB,
        visibleConfigs db
          ((apply_role_based_filtering R
              (freshExec (selectFrom .configuration))).statement) =
          db.configs := by
  constructor
  · intro es
    exact apply_exempt_ctx R es (Or.inr hadm)
  · intro db
    rw [apply_exempt_ctx R _ (Or.inr hadm)]
    exact visibleConfigs_no_criteria db _

/-- C2 witness: with role set `["ADMIN"]` and the spec's two-configuration
scenario, both configurations are returned. -/
theorem admin_bypasses_filtering_witness :
    let db : DB :=
      { roles := [⟨1, "MANAGER"⟩, ⟨2, "ADMIN"⟩, ⟨3, "OIS"⟩],
        configs := [⟨10, 0⟩, ⟨11, 0⟩],
        grants := [⟨1, 10⟩, ⟨2, 10⟩, ⟨3, 11⟩],
        users := [],
        userRoleRows := [] }
    visibleConfigs db
      ((apply_role_based_filtering ["ADMIN"]
          (freshExec (selectFrom .configuration))).statement) =
      db.configs := by
  intro db
  exact (admin_bypasses_filtering ["ADMIN"] (by decide)).2 db

/-- C3: reading the never-set context yields the empty role set (the
`ContextVar` default) without raising, and under that value the listener
leaves every query unchanged, so every configuration row is returned. -/
theorem unset_context_fails_open :
    cvGet none = [] ∧
      (∀ es : ExecuteState,
        apply_role_based_filtering (cvGet none) es = es) ∧
      ∀ db : DB,
        visibleConfigs db
          ((apply_role_based_filtering (cvGet none)
              (freshExec (selectFrom .configuration))).statement) =
          db.configs := by
  refine ⟨rfl, ?_, ?_⟩
  · intro es
    exact apply_exempt_ctx _ es (Or.inl rfl)
  · intro db
    rw [apply_exempt_ctx (cvGet none) _ (Or.inl rfl)]
    exact visibleConfigs_no_criteria db _

/-! ### Claim C6: nested column and relationship loads are exempt -/

/-- C6: when the execute state is a column load or a relationship load, the
listener returns it unchanged whatever the stored role set, so a nested load
(such as materializing `Configuration.roles` on an already-filtered row) never
receives a filter from the rewriter. -/
theorem nested_loads_pass_through (R : List String) (es : ExecuteState)
    (h : es.is_column_load = true ∨ es.is_relationship_load = true) :
    apply_role_based_filtering R es = es := by
  rcases h with h | h <;> simp [apply_role_based_filtering, h]

/-- C6 witness: a relationship load of the grant-set field (`Role` rows of a
configuration) under a filtering role set is left untouched. -/
theorem nested_loads_pass_through_witness :
    apply_role_based_filtering ["MANAGER"]
      ⟨false, true, ⟨.role, []⟩⟩ = ⟨false, true, ⟨.role, []⟩⟩ :=
  nested_loads_pass_through ["MANAGER"] ⟨false, true, ⟨.role, []⟩⟩ (Or.inr rfl)

/-! ### Claim C7: queries over other entities

The listener never inspects the statement's target entity: in the non-exempt
case it attaches the `Configuration`-scoped loader criterion to every
statement, including a select over `User`. The statement therefore is not
identical to the untouched one; the criterion, however, constrains only
`Configuration` rows, so the result set of the non-`Configuration` target
entity is unchanged. -/

/-- C7 counterexample: with stored role set `["USER"]`, a top-level select
over `User` does not pass through unmodified — the rewriter attaches the
configuration loader criterion to its statement. -/
theorem non_config_statement_modified :
    apply_role_based_filtering ["USER"] (freshExec (selectFrom .user)) ≠
      freshExec (selectFrom .user) := by
  decide

/-- C7 amended: the rewriter may attach the configuration-scoped criterion to
a statement over `User`, but that criterion excludes no `User` row, so the
query's result set over its target entity equals the unfiltered one. -/
theorem non_config_query_rows_unchanged (R : List String) (db : DB)
    (es : ExecuteState) :
    visibleUsers db ((apply_role_based_filtering R es).statement) =
      visibleUsers db es.statement := by
  unfold apply_role_based_filtering
  split
  · rfl
  · split
    · rfl
    · simp [visibleUsers, userMatchesCriterion]

/-! ### Claims C4, C10: the authorization guard -/

/-- The payload of the `HTTPException` raised by the guard. -/
structure HTTPError where
  statusCode : Nat
  detail : String
deriving DecidableEq

/-- The checker produced by `require_role(*required_roles)`, applied to the
principal's role names (`{role.name for role in current_user.roles}`): succeed
when `any(role in user_roles for role in required_roles)`, otherwise raise
`HTTPException(403, f"Required role(s): {', '.join(required_roles)}")`
(the braces stand for the interpolated values). -/
def require_role (required_roles : List String) (user_roles0 : List String) :
    Except HTTPError Unit :=
  if required_roles.any (fun role => user_roles0.contains role) then
    Except.ok ()
  else
    Except.error
      ⟨403, "Required role(s): " ++ String.intercalate ", " required_roles⟩

/-- C4: the guard succeeds iff the required set meets the principal's set;
otherwise it rejects with a 403 whose message enumerates exactly the required
roles; and `require_role("ADMIN")` succeeds iff the principal holds `ADMIN`. -/
theorem require_any_of_iff (S U : List String) :
    (require_role S U = Except.ok () ↔ ∃ r ∈ S, r ∈ U) ∧
      (¬ (∃ r ∈ S, r ∈ U) →
        require_role S U =
          Except.error
            ⟨403, "Required role(s): " ++ String.intercalate ", " S⟩) ∧
      (require_role ["ADMIN"] U = Except.ok () ↔ "ADMIN" ∈ U) := by
  refine ⟨?_, ?_, ?_⟩
  · unfold require_role
    split
    · rename_i h
      simp only [List.any_eq_true] at h
      obtain ⟨r, hr, hmem⟩ := h
      exact iff_of_true rfl ⟨r, hr, by simpa using hmem⟩
    · rename_i h
      simp only [List.any_eq_true, not_exists, not_and] at h
      refine iff_of_false (by simp) ?_
      rintro ⟨r, hr, hmem⟩
      exact absurd (by simpa using hmem) (by simpa using h r hr)
  · intro h
    unfold require_role
    split
    · rename_i hb
      simp only [List.any_eq_true] at hb
      obtain ⟨r, hr, hmem⟩ := hb
      exact absurd ⟨r, hr, by simpa using hmem⟩ h
    · rfl
  · unfold require_role
    split
    · rename_i h
      simp only [List.any_eq_true] at h
      obtain ⟨r, hr, hmem⟩ := h
      simp only [List.mem_singleton] at hr
      subst hr
      exact iff_of_true rfl (by simpa using hmem)
    · rename_i h
      simp only [List.any_eq_true, not_exists, not_and] at h
      exact iff_of_false (by simp)
        (fun hmem => absurd (by simpa using hmem)
          (by simpa using h "ADMIN" (List.mem_singleton.mpr rfl)))

/-- C4 witness: `require_role("ADMIN")` rejects a principal holding only
`USER`, with the enumerated message. -/
theorem require_any_of_iff_witness :
    require_role ["ADMIN"] ["USER"] =
      Except.error ⟨403, "Required role(s): ADMIN"⟩ :=
  (require_any_of_iff ["ADMIN"] ["USER"]).2.1 (by decide)

/-- C10: `require_role()` with an empty required list rejects every principal
— `ADMIN` included — with a 403 whose enumerated role list is empty. -/
theorem empty_required_roles_reject_all (U : List String) :
    require_role [] U = Except.error ⟨403, "Required role(s): "⟩ := rfl

/-! ### Claim C8: what authentication stores in the context

`get_current_user_with_context` stores `[role.name for role in user.roles]`.
The relationship `User.roles` is loaded through the `user_roles` association
table: one entry per assignment row of the user, resolved to the role row
whose primary key matches. -/

/-- The loaded `user.roles` collection: for each `user_roles` row of this
user, the `roles` row with the matching primary key (one entry per assignment
row; a dangling assignment contributes nothing). -/
def rolesOfUser (db : DB) (u : UserRow) : List RoleRow :=
  (db.userRoleRows.filter fun ur => ur.userId == u.id).filterMap
    fun ur => db.roles.find? fun r => r.id == ur.roleId

/-- `get_current_user_with_context` after a successful authentication of `u`:
compute `role_names = [role.name for role in user.roles]`, store it in
`current_user_roles`, and return the user. -/
def get_current_user_with_context (db : DB) (u : UserRow)
    (ctx : Option (List String)) : Option (List String) × UserRow :=
  let role_names := (rolesOfUser db u).map RoleRow.name
  (cvSet role_names ctx, u)

/-- If the user's assignment rows carry pairwise-distinct role keys and role
names are unique, the loaded role-name list has no duplicates. -/
theorem nodup_names_of_nodup_assignments (rs : List RoleRow)
    (A : List UserRoleRow)
    (hnames : (rs.map RoleRow.name).Nodup)
    (h : (A.map UserRoleRow.roleId).Nodup) :
    ((A.filterMap fun ur => rs.find? fun r => r.id == ur.roleId).map
        RoleRow.name).Nodup := by
  induction A with
  | nil => simp
  | cons ur A ih =>
    simp only [List.map_cons, List.nodup_cons] at h
    obtain ⟨hhead, htail⟩ := h
    rw [List.filterMap_cons]
    cases hfind : rs.find? fun r => r.id == ur.roleId with
    | none => exact ih htail
    | some r =>
      simp only [List.map_cons, List.nodup_cons]
      refine ⟨?_, ih htail⟩
      intro hmem
      rw [List.mem_map] at hmem
      obtain ⟨r', hr', hname⟩ := hmem
      rw [List.mem_filterMap] at hr'
      obtain ⟨ur', hur', hfind'⟩ := hr'
      have hrid : r.id = ur.roleId := by simpa using List.find?_some hfind
      have hrid' : r'.id = ur'.roleId := by simpa using List.find?_some hfind'
      have hrr : r' = r :=
        List.inj_on_of_nodup_map hnames (List.mem_of_find?_eq_some hfind')
          (List.mem_of_find?_eq_some hfind) hname
      refine hhead ?_
      rw [List.mem_map]
      exact ⟨ur', hur', by rw [← hrid', hrr, hrid]⟩

/-- With unique role keys, a name occurs in the loaded role-name list iff some
assignment row of the list resolves to a role carrying that name. -/
theorem mem_loaded_names_iff (rs : List RoleRow) (A : List UserRoleRow)
    (hids : (rs.map RoleRow.id).Nodup) (n : String) :
    n ∈ (A.filterMap fun ur => rs.find? fun r => r.id == ur.roleId).map
        RoleRow.name ↔
      ∃ ur ∈ A, ∃ r ∈ rs, r.id = ur.roleId ∧ r.name = n := by
  simp only [List.mem_map, List.mem_filterMap]
  constructor
  · rintro ⟨r, ⟨ur, hur, hfind⟩, rfl⟩
    exact ⟨ur, hur, r, List.mem_of_find?_eq_some hfind,
      by simpa using List.find?_some hfind, rfl⟩
  · rintro ⟨ur, hur, r, hr, hid, rfl⟩
    have hsome : (rs.find? fun r0 => r0.id == ur.roleId).isSome := by
      rw [List.find?_isSome]
      exact ⟨r, hr, by simpa using hid⟩
    obtain ⟨r', hfind'⟩ := Option.isSome_iff_exists.mp hsome
    have hrid' : r'.id = ur.roleId := by simpa using List.find?_some hfind'
    have hrr : r' = r :=
      List.inj_on_of_nodup_map hids (List.mem_of_find?_eq_some hfind') hr
        (by rw [hrid', hid])
    exact ⟨r', ⟨ur, hur, hfind'⟩, by rw [hrr]⟩

/-- C8: on successful authentication, provided role primary keys and names
are unique (database constraints) and the user's assignment rows are
duplicate-free (maintained by the admin write path, see
`assign_user_roles_keeps_assignments_nodup`), the value stored in
`current_user_roles` contains each of the principal's role names exactly once
— it is duplicate-free and holds precisely the names reachable through the
user's assignment rows — and every subsequent `get` in the request reads it. -/
theorem auth_stores_deduplicated_role_names (db : DB) (u : UserRow)
    (ctx : Option (List String))
    (hids : (db.roles.map RoleRow.id).Nodup)
    (hnames : (db.roles.map RoleRow.name).Nodup)
    (hassign : ((db.userRoleRows.filter fun ur => ur.userId == u.id).map
        UserRoleRow.roleId).Nodup) :
    (cvGet (get_current_user_with_context db u ctx).1).Nodup ∧
      ∀ n, n ∈ cvGet (get_current_user_with_context db u ctx).1 ↔
        ∃ ur ∈ db.userRoleRows, ur.userId = u.id ∧
          ∃ r ∈ db.roles, r.id = ur.roleId ∧ r.name = n := by
  have hstored : cvGet (get_current_user_with_context db u ctx).1 =
      (rolesOfUser db u).map RoleRow.name := rfl
  rw [hstored]
  constructor
  · exact nodup_names_of_nodup_assignments db.roles _ hnames hassign
  · intro n
    rw [rolesOfUser, mem_loaded_names_iff db.roles _ hids n]
    constructor
    · rintro ⟨ur, hur, hrest⟩
      rw [List.mem_filter] at hur
      exact ⟨ur, hur.1, by simpa using hur.2, hrest⟩
    · rintro ⟨ur, hur, huid, hrest⟩
      exact ⟨ur, List.mem_filter.mpr ⟨hur, by simpa using huid⟩, hrest⟩

/-- C8 witness: a user holding `MANAGER` and `OIS` through two assignment
rows stores exactly those two names, each once. -/
theorem auth_stores_deduplicated_role_names_witness :
    let db : DB :=
      { roles := [⟨1, "MANAGER"⟩, ⟨2, "ADMIN"⟩, ⟨3, "OIS"⟩],
        configs := [],
        grants := [],
        users := [⟨7⟩],
        userRoleRows := [⟨7, 1⟩, ⟨7, 3⟩] }
    (cvGet (get_current_user_with_context db ⟨7⟩ none).1).Nodup ∧
      "MANAGER" ∈ cvGet (get_current_user_with_context db ⟨7⟩ none).1 := by
  intro db
  have h := auth_stores_deduplicated_role_names db ⟨7⟩ none
    (by decide) (by decide) (by decide)
  exact ⟨h.1, (h.2 "MANAGER").mpr (by decide)⟩

/-- The admin endpoint `assign_user_roles`: look the user up, select the roles
whose keys are in the request, reject when some are missing (which also
rejects duplicated request keys), and otherwise replace the user's assignment
rows with one row per selected role. -/
def assign_user_roles (db : DB) (uid : Nat) (role_ids : List Nat) :
    Except HTTPError DB :=
  if db.users.any fun u => u.id == uid then
    let selected := db.roles.filter fun r => role_ids.contains r.id
    if selected.length = role_ids.length then
      let kept := db.userRoleRows.filter fun ur => ur.userId != uid
      let fresh := selected.map fun r => UserRoleRow.mk uid r.id
      Except.ok { db with userRoleRows := kept ++ fresh }
    else
      Except.error ⟨404, "Some roles not found"⟩
  else
    Except.error ⟨404, "User not found"⟩

/-- The admin write path maintains C8's duplicate-freeness invariant: after a
successful `assign_user_roles`, the affected user's assignment rows carry
pairwise-distinct role keys. -/
theorem assign_user_roles_keeps_assignments_nodup (db db' : DB)
    (uid : Nat) (role_ids : List Nat) (u : UserRow)
    (hids : (db.roles.map RoleRow.id).Nodup)
    (h : assign_user_roles db uid role_ids = Except.ok db')
    (hu : u.id = uid) :
    ((db'.userRoleRows.filter fun ur => ur.userId == u.id).map
        UserRoleRow.roleId).Nodup := by
  unfold assign_user_roles at h
  split at h
  · dsimp only [] at h
    split at h
    · simp only [Except.ok.injEq] at h
      subst h
      subst hu
      simp only [List.filter_append, List.filter_filter]
      have h1 : (db.userRoleRows.filter
          fun ur => (ur.userId == u.id) && (ur.userId != u.id)) = [] := by
        apply List.filter_eq_nil_iff.mpr
        intro ur _
        by_cases hx : ur.userId = u.id <;> simp [hx]
      have h2 : ((db.roles.filter fun r => role_ids.contains r.id).map
            fun r => UserRoleRow.mk u.id r.id).filter
            (fun ur => ur.userId == u.id) =
          (db.roles.filter fun r => role_ids.contains r.id).map
            fun r => UserRoleRow.mk u.id r.id := by
        apply List.filter_eq_self.mpr
        intro ur hur
        rw [List.mem_map] at hur
        obtain ⟨r, _, rfl⟩ := hur
        simp
      rw [h1, h2, List.nil_append, List.map_map]
      have hsub : List.Sublist
          ((db.roles.filter fun r => role_ids.contains r.id).map RoleRow.id)
          (db.roles.map RoleRow.id) := (List.filter_sublist db.roles).map _
      exact List.Nodup.sublist hsub hids
    · exact absurd h (by simp)
  · exact absurd h (by simp)

/-! ### Claim C9: setting the context twice -/

/-- C9: within one request, `set` never fails; setting the same value twice
leaves a state identical to setting it once, and setting two different values
leaves exactly the second as the result of every subsequent `get`
(last-write-wins). -/
theorem context_set_last_write_wins
    (s : Option (List String)) (a b : List String) :
    cvSet a (cvSet a s) = cvSet a s ∧
      cvGet (cvSet b (cvSet a s)) = b ∧
      cvGet (cvSet a s) = a :=
  ⟨rfl, rfl, rfl⟩

end AskAttDocs
